import Mathlib

/-!
A shallow embedding of `src/main.rs` of club.rs (CLasp Upstream Bridge), a CLI
tool managing multiple clasp remotes inside a `.clasp.json` manifest.

Rust strings are modelled as `List Char`. The `indexmap::IndexMap` used for the
remote table is modelled as an association list `List (RemoteName × RemoteId)`
with the IndexMap operations (`insert` keeps an existing key in place and
overwrites its value; `shift_remove` deletes an entry preserving the relative
order of the rest). JSON values (`serde_json::Value`) are modelled by `JValue`;
objects are ordered key/value lists, matching the order-preserving map the
crate is configured with. Filesystem writes are modelled by returning the
`ClaspConfig` that is written; the subprocess in `push_to_remote` is modelled
by a `SpawnOutcome` parameter.
-/

set_option autoImplicit false

namespace Club

/-- The character class `[a-zA-Z0-9-_]` of the two validation regexes in
`main.rs` (the `-` between `9` and `_` is a literal hyphen). -/
def isClassChar (c : Char) : Bool :=
  (('a' ≤ c && c ≤ 'z') || ('A' ≤ c && c ≤ 'Z') || ('0' ≤ c && c ≤ '9')
    || c == '-' || c == '_')

/-- Whether the regex `[a-zA-Z0-9-_]{57}` matches at the start of `cs`:
the first 57 characters exist and all lie in the class. -/
def matchesRun57At (cs : List Char) : Bool :=
  decide (57 ≤ cs.length) && (cs.take 57).all isClassChar

/-- `Regex::new(r"[a-zA-Z0-9-_]{57}").is_match(value)`: unanchored search, so
it succeeds iff the pattern matches at some position of the string, i.e. some
suffix starts with 57 consecutive class characters. -/
def reIsMatchId : List Char → Bool
  | [] => matchesRun57At []
  | c :: rest => matchesRun57At (c :: rest) || reIsMatchId rest

/-- `Regex::new(r"[a-zA-Z0-9-_]+").is_match(value)`: unanchored search for one
or more class characters, i.e. some character of the string is in the class. -/
def reIsMatchName (cs : List Char) : Bool :=
  cs.any isClassChar

/-- Newtype `RemoteName(String)` from `main.rs`. -/
structure RemoteName where
  val : List Char
deriving DecidableEq

/-- Newtype `RemoteId(String)` from `main.rs`. -/
structure RemoteId where
  val : List Char
deriving DecidableEq

/-- The `ClubError` enum from `main.rs`. -/
inductive ClubError where
  | ManifestNotFound
  | ManifestReadFail (msg : List Char)
  | ManifestWriteFail (msg : List Char)
  | ClubNotSetup
  | ClubAlreadySetup
  | RemoteNotFound
  | RemoteAlreadyExists
  | InvalidRemoteName
  | InvalidRemoteId
  | NoRemotesAvailable
  | BothRemoteAndAllPassed
  | ClaspError (msg : List Char)
deriving DecidableEq

/-- `impl TryFrom<String> for RemoteId`: accepts iff the unanchored 57-run
regex matches somewhere in the string. -/
def RemoteId.tryFrom (value : List Char) : Except ClubError RemoteId :=
  if reIsMatchId value then .ok ⟨value⟩ else .error .InvalidRemoteId

/-- `impl TryFrom<String> for RemoteName`: accepts iff the unanchored
one-or-more regex matches somewhere in the string. -/
def RemoteName.tryFrom (value : List Char) : Except ClubError RemoteName :=
  if reIsMatchName value then .ok ⟨value⟩ else .error .InvalidRemoteName

/-- The remote table: `IndexMap<RemoteName, RemoteId>` as an ordered
association list with unique keys. -/
abbrev RemoteTable : Type := List (RemoteName × RemoteId)

/-- The keys of a remote table, in order. -/
def tableKeys (t : RemoteTable) : List RemoteName :=
  t.map Prod.fst

/-- `IndexMap::contains_key`. -/
def containsKey (k : RemoteName) (t : RemoteTable) : Bool :=
  t.any (fun p => decide (p.1 = k))

/-- `IndexMap::get`. -/
def imGet (k : RemoteName) : RemoteTable → Option RemoteId
  | [] => none
  | p :: rest => if p.1 = k then some p.2 else imGet k rest

/-- `IndexMap::insert`: if the key is present its value is overwritten and the
entry keeps its position; otherwise the pair is appended at the end. -/
def imInsert (k : RemoteName) (v : RemoteId) : RemoteTable → RemoteTable
  | [] => [(k, v)]
  | p :: rest => if p.1 = k then (p.1, v) :: rest else p :: imInsert k v rest

/-- `IndexMap::shift_remove`: removes the entry with the given key (if any),
shifting the following entries down, and returns its value. -/
def shiftRemove (k : RemoteName) : RemoteTable → Option RemoteId × RemoteTable
  | [] => (none, [])
  | p :: rest =>
    if p.1 = k then (some p.2, rest)
    else
      let r := shiftRemove k rest
      (r.1, p :: r.2)

/-- The `ClaspConfig` struct from `main.rs`: the in-memory manifest state. -/
structure ClaspConfig where
  root_dir : List Char
  script_id : List Char
  parent_ids : List (List Char)
  club_remotes : Option RemoteTable
deriving DecidableEq

/-- `serde_json::Value`, with objects as ordered key/value lists (the
order-preserving map representation). Numbers are abstracted to `Int`; the
manifest code never inspects them. -/
inductive JValue where
  | null
  | bool (b : Bool)
  | num (n : Int)
  | str (s : List Char)
  | arr (elems : List JValue)
  | obj (fields : List (List Char × JValue))

/-- `Value::as_str`. -/
def asStr : JValue → Option (List Char)
  | .str s => some s
  | _ => none

/-- `Value::as_array`. -/
def asArr : JValue → Option (List JValue)
  | .arr xs => some xs
  | _ => none

/-- `Value::as_object`. -/
def asObj : JValue → Option (List (List Char × JValue))
  | .obj fields => some fields
  | _ => none

/-- Object field lookup, first match wins. -/
def objLookup (key : List Char) : List (List Char × JValue) → Option JValue
  | [] => none
  | f :: rest => if f.1 = key then some f.2 else objLookup key rest

/-- `value[key]` for a string key: the field's value when `value` is an object
containing the key, `Null` otherwise. -/
def jIndex (v : JValue) (key : List Char) : JValue :=
  match v with
  | .obj fields =>
    match objLookup key fields with
    | some x => x
    | none => .null
  | _ => .null

/-- `value[key] = x` for a string key on an object: overwrite in place when
present, append otherwise (order-preserving map insertion). -/
def objInsert (key : List Char) (x : JValue) :
    List (List Char × JValue) → List (List Char × JValue)
  | [] => [(key, x)]
  | f :: rest => if f.1 = key then (f.1, x) :: rest else f :: objInsert key x rest

def rootDirKey : List Char := "rootDir".toList

def scriptIdKey : List Char := "scriptId".toList

def parentIdKey : List Char := "parentId".toList

def clubKey : List Char := "__club__".toList

def mainStr : List Char := "main".toList

instance {ε α : Type} [DecidableEq ε] [DecidableEq α] :
    DecidableEq (Except ε α) := fun x y =>
  match x, y with
  | .ok a, .ok b =>
    if h : a = b then isTrue (by rw [h])
    else isFalse (by intro he; cases he; exact h rfl)
  | .error a, .error b =>
    if h : a = b then isTrue (by rw [h])
    else isFalse (by intro he; cases he; exact h rfl)
  | .ok _, .error _ => isFalse (fun he => Except.noConfusion he)
  | .error _, .ok _ => isFalse (fun he => Except.noConfusion he)

/-- Outcome of `TryFrom<Value> for ClaspConfig`. The `__club__` parsing loop
uses `unwrap`/`expect`, so a malformed stored remote aborts the process with a
panic rather than returning an `Err`; `panicked` records that. -/
inductive LoadResult where
  | ok (c : ClaspConfig)
  | err (e : ClubError)
  | panicked (msg : List Char)
deriving DecidableEq

/-- Outcome of the `__club__` parsing loop. -/
inductive TableResult where
  | ok (t : RemoteTable)
  | panicked (msg : List Char)
deriving DecidableEq

/-- The `for (key, value) in remotes` loop of `TryFrom<Value> for ClaspConfig`:
each key goes through `RemoteName::try_from(...).unwrap()`, each value through
`as_str().expect(...)` then `RemoteId::try_from(...).unwrap()`, and the pair is
inserted into the accumulated map. -/
def buildRemoteMap (acc : RemoteTable) : List (List Char × JValue) → TableResult
  | [] => .ok acc
  | (k, v) :: rest =>
    match RemoteName.tryFrom k with
    | .error _ => .panicked "called unwrap on an Err value".toList
    | .ok rn =>
      match asStr v with
      | none => .panicked "Remote ID should be a string".toList
      | some s =>
        match RemoteId.tryFrom s with
        | .error _ => .panicked "called unwrap on an Err value".toList
        | .ok ri => buildRemoteMap (imInsert rn ri acc) rest

/-- Whether one stored `__club__` entry survives the parsing loop of
`buildRemoteMap`: its key passes `RemoteName::try_from` and its value is a
JSON string passing `RemoteId::try_from`. -/
def validEntry (p : List Char × JValue) : Bool :=
  reIsMatchName p.1 &&
    (match asStr p.2 with
     | some s => reIsMatchId s
     | none => false)

/-- `parent_ids` collection: each array element through `as_str().ok_or(...)`,
collected into a `Result<Vec<String>, ClubError>` (first error wins). -/
def collectParentIds : List JValue → Except ClubError (List (List Char))
  | [] => .ok []
  | v :: rest =>
    match asStr v with
    | none => .error (.ManifestReadFail "parentId not found".toList)
    | some s =>
      match collectParentIds rest with
      | .error e => .error e
      | .ok ss => .ok (s :: ss)

/-- `impl TryFrom<Value> for ClaspConfig`: reads `rootDir`, `scriptId`,
`parentId` (failing with `ManifestReadFail` when missing or mistyped), then
parses the optional `__club__` object; a non-object `__club__` yields
`club_remotes = none`, a malformed entry panics. -/
def claspConfigTryFrom (v : JValue) : LoadResult :=
  match asStr (jIndex v rootDirKey) with
  | none => .err (.ManifestReadFail "rootDir not found".toList)
  | some rd =>
    match asStr (jIndex v scriptIdKey) with
    | none => .err (.ManifestReadFail "scriptId not found".toList)
    | some sid =>
      match asArr (jIndex v parentIdKey) with
      | none => .err (.ManifestReadFail "parentId not found".toList)
      | some elems =>
        match collectParentIds elems with
        | .error e => .err e
        | .ok pids =>
          match asObj (jIndex v clubKey) with
          | none => .ok ⟨rd, sid, pids, none⟩
          | some fields =>
            match buildRemoteMap [] fields with
            | .panicked m => .panicked m
            | .ok t => .ok ⟨rd, sid, pids, some t⟩

/-- `impl TryFrom<ClaspConfig> for Value`: builds the object with `rootDir`,
`scriptId`, `parentId`, then assigns `__club__` (when the table is present) to
the object built by index-assigning each table entry in order. This
serialization never fails in the source, so it returns `JValue` directly. -/
def claspConfigToValue (config : ClaspConfig) : JValue :=
  let base : List (List Char × JValue) :=
    [(rootDirKey, .str config.root_dir),
     (scriptIdKey, .str config.script_id),
     (parentIdKey, .arr (config.parent_ids.map .str))]
  match config.club_remotes with
  | none => .obj base
  | some remotes =>
    let remotesJson := remotes.foldl (fun o p => objInsert p.1.val (.str p.2.val) o) []
    .obj (objInsert clubKey (.obj remotesJson) base)

/-- `club_list`: requires the table and returns its entries in order (terminal
formatting abstracted away). -/
def club_list (config : ClaspConfig) : Except ClubError RemoteTable :=
  match config.club_remotes with
  | none => .error .ClubNotSetup
  | some remotes => .ok remotes

/-- `club_set`: validates the name then the id (a name error takes precedence
when both fail, matching the `match` arm order), requires the table, inserts,
and returns the config that is written back. -/
def club_set (config : ClaspConfig) (name id : List Char) :
    Except ClubError ClaspConfig :=
  match RemoteName.tryFrom name, RemoteId.tryFrom id with
  | .ok remote_name, .ok remote_id =>
    match config.club_remotes with
    | none => .error .ClubNotSetup
    | some remotes =>
      .ok { config with club_remotes := some (imInsert remote_name remote_id remotes) }
  | .error e, _ => .error e
  | .ok _, .error e => .error e

/-- `club_init`: fails when the table is already present; otherwise creates a
table seeded with `main ↦ script_id` exactly when the manifest's `script_id`
passes `RemoteId::try_from`, and returns the config that is written back. -/
def club_init (config : ClaspConfig) : Except ClubError ClaspConfig :=
  match config.club_remotes with
  | some _ => .error .ClubAlreadySetup
  | none =>
    let club_remotes : RemoteTable :=
      match RemoteId.tryFrom config.script_id with
      | .ok _ => imInsert ⟨mainStr⟩ ⟨config.script_id⟩ []
      | .error _ => []
    .ok { config with club_remotes := some club_remotes }

/-- `club_remove`: validates the name, requires the table, `shift_remove`s the
entry (failing `RemoteNotFound` when absent), and returns the written config. -/
def club_remove (config : ClaspConfig) (name : List Char) :
    Except ClubError ClaspConfig :=
  match RemoteName.tryFrom name with
  | .error e => .error e
  | .ok remote_name =>
    match config.club_remotes with
    | none => .error .ClubNotSetup
    | some remotes =>
      match shiftRemove remote_name remotes with
      | (none, _) => .error .RemoteNotFound
      | (some _, rest) => .ok { config with club_remotes := some rest }

/-- `club_rename`: validates both names, requires the table, fails
`RemoteAlreadyExists` when the new name is already a key, then `shift_remove`s
the old entry (failing `RemoteNotFound` when absent) and re-inserts its id
under the new name; returns the written config. -/
def club_rename (config : ClaspConfig) (old_name new_name : List Char) :
    Except ClubError ClaspConfig :=
  match RemoteName.tryFrom old_name with
  | .error e => .error e
  | .ok oldN =>
    match RemoteName.tryFrom new_name with
    | .error e => .error e
    | .ok newN =>
      match config.club_remotes with
      | none => .error .ClubNotSetup
      | some remotes =>
        if containsKey newN remotes then .error .RemoteAlreadyExists
        else
          match shiftRemove oldN remotes with
          | (none, _) => .error .RemoteNotFound
          | (some remote_id, rest) =>
            .ok { config with club_remotes := some (imInsert newN remote_id rest) }

/-- `club_push`, target selection: requires the table, rejects a remote name
combined with `--all`, rejects an empty table, then either selects every entry
in table order (`--all`) or resolves the single target (defaulting to
`"main"`), failing `RemoteNotFound` when absent. Each selected target is
handed to `push_to_remote` in order; the returned list records those
invocations (each assumed to return `Ok`). -/
def club_push (config : ClaspConfig) (remote : Option (List Char)) (all : Bool) :
    Except ClubError RemoteTable :=
  match config.club_remotes with
  | none => .error .ClubNotSetup
  | some remotes =>
    if remote.isSome && all then .error .BothRemoteAndAllPassed
    else if remotes.length == 0 then .error .NoRemotesAvailable
    else if all then .ok remotes
    else
      match RemoteName.tryFrom (remote.getD mainStr) with
      | .error e => .error e
      | .ok remote_name =>
        match imGet remote_name remotes with
        | none => .error .RemoteNotFound
        | some remote_id => .ok [(remote_name, remote_id)]

/-- Outcome of `Command::new("clasp").arg("push").status()`: either the OS
could not start the subprocess, or the subprocess exited (successfully or
not). -/
inductive SpawnOutcome where
  | couldNotStart (detail : List Char)
  | exited (success : Bool)
deriving DecidableEq

/-- `push_to_remote`: writes a copy of the config whose `script_id` is the
target remote's id, runs `clasp push`, and then (only on the path where
`status()` returned) writes the original config back; a spawn failure
propagates through `?` before the restoring write. The second component of the
result is the manifest content left on disk (writes modelled as storing the
config). -/
def push_to_remote (remote_id : RemoteId) (config : ClaspConfig)
    (outcome : SpawnOutcome) : Except ClubError Unit × ClaspConfig :=
  let config_copy := { config with script_id := remote_id.val }
  match outcome with
  | .couldNotStart detail => (.error (.ClaspError detail), config_copy)
  | .exited success =>
    let return_val : Except ClubError Unit :=
      if success then .ok () else .error (.ClaspError "clasp push failed".toList)
    (return_val, config)

end Club


namespace Club

theorem tableKeys_cons (p : RemoteName × RemoteId) (t : RemoteTable) :
    tableKeys (p :: t) = p.1 :: tableKeys t := rfl

theorem tableKeys_append (s t : RemoteTable) :
    tableKeys (s ++ t) = tableKeys s ++ tableKeys t :=
  List.map_append _ s t

theorem containsKey_eq_true_iff (k : RemoteName) (t : RemoteTable) :
    containsKey k t = true ↔ k ∈ tableKeys t := by
  unfold containsKey tableKeys
  rw [List.any_eq_true]
  constructor
  · rintro ⟨p, hp, hpe⟩
    exact List.mem_map.mpr ⟨p, hp, of_decide_eq_true hpe⟩
  · intro h
    rcases List.mem_map.mp h with ⟨p, hp, he⟩
    exact ⟨p, hp, decide_eq_true he⟩

theorem containsKey_eq_false_iff (k : RemoteName) (t : RemoteTable) :
    containsKey k t = false ↔ k ∉ tableKeys t := by
  rw [← containsKey_eq_true_iff, Bool.eq_false_iff]

theorem ne_of_head_not_mem {k : RemoteName} {p : RemoteName × RemoteId}
    {rest : RemoteTable} (h : k ∉ tableKeys (p :: rest)) : ¬p.1 = k :=
  fun he => h (by rw [tableKeys_cons, he]; exact List.mem_cons_self _ _)

theorem not_mem_of_cons_not_mem {k : RemoteName} {p : RemoteName × RemoteId}
    {rest : RemoteTable} (h : k ∉ tableKeys (p :: rest)) : k ∉ tableKeys rest :=
  fun hk => h (by rw [tableKeys_cons]; exact List.mem_cons_of_mem _ hk)

theorem imGet_eq_none_of_not_mem (k : RemoteName) (t : RemoteTable)
    (h : k ∉ tableKeys t) : imGet k t = none := by
  induction t with
  | nil => rfl
  | cons p rest ih =>
    unfold imGet
    rw [if_neg (ne_of_head_not_mem h)]
    exact ih (not_mem_of_cons_not_mem h)

theorem imGet_isSome_of_mem (k : RemoteName) (t : RemoteTable)
    (h : k ∈ tableKeys t) : ∃ i, imGet k t = some i := by
  induction t with
  | nil => exact absurd h (by simp [tableKeys])
  | cons p rest ih =>
    unfold imGet
    by_cases hpk : p.1 = k
    · refine ⟨p.2, ?_⟩
      rw [if_pos hpk]
    · rw [if_neg hpk]
      refine ih ?_
      rw [tableKeys_cons] at h
      rcases List.mem_cons.mp h with he | hm
      · exact absurd he.symm hpk
      · exact hm

theorem imInsert_of_not_mem (k : RemoteName) (v : RemoteId) (t : RemoteTable)
    (h : k ∉ tableKeys t) : imInsert k v t = t ++ [(k, v)] := by
  induction t with
  | nil => rfl
  | cons p rest ih =>
    unfold imInsert
    rw [if_neg (ne_of_head_not_mem h), ih (not_mem_of_cons_not_mem h)]
    rfl

theorem map_overwrite_of_not_mem (k : RemoteName) (v : RemoteId) (t : RemoteTable)
    (h : k ∉ tableKeys t) :
    t.map (fun p => if p.1 = k then (p.1, v) else p) = t := by
  induction t with
  | nil => rfl
  | cons p rest ih =>
    rw [List.map_cons, if_neg (ne_of_head_not_mem h), ih (not_mem_of_cons_not_mem h)]

theorem imInsert_of_mem_nodup (k : RemoteName) (v : RemoteId) (t : RemoteTable)
    (hnd : (tableKeys t).Nodup) (h : k ∈ tableKeys t) :
    imInsert k v t = t.map (fun p => if p.1 = k then (p.1, v) else p) := by
  induction t with
  | nil => exact absurd h (by simp [tableKeys])
  | cons p rest ih =>
    rw [tableKeys_cons] at hnd
    unfold imInsert
    by_cases hpk : p.1 = k
    · rw [if_pos hpk, List.map_cons, if_pos hpk,
        map_overwrite_of_not_mem k v rest
          (fun hk => (List.nodup_cons.mp hnd).1 (by rw [hpk]; exact hk))]
    · rw [if_neg hpk, List.map_cons, if_neg hpk]
      rw [tableKeys_cons] at h
      rcases List.mem_cons.mp h with he | hm
      · exact absurd he.symm hpk
      · rw [ih (List.nodup_cons.mp hnd).2 hm]

theorem tableKeys_map_overwrite (k : RemoteName) (v : RemoteId) (t : RemoteTable) :
    tableKeys (t.map (fun p => if p.1 = k then (p.1, v) else p)) = tableKeys t := by
  induction t with
  | nil => rfl
  | cons p rest ih =>
    rw [List.map_cons, tableKeys_cons, tableKeys_cons, ih]
    by_cases hpk : p.1 = k
    · rw [if_pos hpk]
    · rw [if_neg hpk]

theorem shiftRemove_fst (k : RemoteName) (t : RemoteTable) :
    (shiftRemove k t).1 = imGet k t := by
  induction t with
  | nil => rfl
  | cons p rest ih =>
    simp only [shiftRemove, imGet]
    by_cases hpk : p.1 = k
    · rw [if_pos hpk, if_pos hpk]
    · rw [if_neg hpk, if_neg hpk]
      exact ih

theorem filter_ne_of_not_mem (k : RemoteName) (t : RemoteTable)
    (h : k ∉ tableKeys t) :
    t.filter (fun p => decide (p.1 ≠ k)) = t := by
  induction t with
  | nil => rfl
  | cons p rest ih =>
    rw [List.filter_cons, if_pos (decide_eq_true (ne_of_head_not_mem h)),
      ih (not_mem_of_cons_not_mem h)]

theorem shiftRemove_snd_of_nodup (k : RemoteName) (t : RemoteTable)
    (hnd : (tableKeys t).Nodup) :
    (shiftRemove k t).2 = t.filter (fun p => decide (p.1 ≠ k)) := by
  induction t with
  | nil => rfl
  | cons p rest ih =>
    rw [tableKeys_cons] at hnd
    simp only [shiftRemove]
    by_cases hpk : p.1 = k
    · rw [if_pos hpk, List.filter_cons, if_neg (by simp [hpk]),
        filter_ne_of_not_mem k rest
          (fun hk => (List.nodup_cons.mp hnd).1 (by rw [hpk]; exact hk))]
    · rw [if_neg hpk, List.filter_cons, if_pos (decide_eq_true hpk),
        ih (List.nodup_cons.mp hnd).2]

theorem not_mem_tableKeys_filter_ne (k : RemoteName) (t : RemoteTable) :
    k ∉ tableKeys (t.filter (fun p => decide (p.1 ≠ k))) := by
  induction t with
  | nil => simp [tableKeys]
  | cons p rest ih =>
    rw [List.filter_cons]
    by_cases hpk : p.1 = k
    · rw [if_neg (by simp [hpk])]
      exact ih
    · rw [if_pos (decide_eq_true hpk), tableKeys_cons]
      intro hmem
      rcases List.mem_cons.mp hmem with he | hm
      · exact hpk he.symm
      · exact ih hm

theorem mem_tableKeys_of_mem_filter (k : RemoteName)
    (f : RemoteName × RemoteId → Bool) (t : RemoteTable)
    (h : k ∈ tableKeys (t.filter f)) : k ∈ tableKeys t := by
  induction t with
  | nil => simp [tableKeys] at h
  | cons p rest ih =>
    rw [List.filter_cons] at h
    rw [tableKeys_cons]
    by_cases hf : f p = true
    · rw [if_pos hf, tableKeys_cons] at h
      rcases List.mem_cons.mp h with he | hm
      · exact he ▸ List.mem_cons_self _ _
      · exact List.mem_cons_of_mem _ (ih hm)
    · rw [if_neg hf] at h
      exact List.mem_cons_of_mem _ (ih h)

theorem tryFromName_ok (n : RemoteName) (h : reIsMatchName n.val = true) :
    RemoteName.tryFrom n.val = .ok n := by
  unfold RemoteName.tryFrom
  rw [if_pos h]

theorem tryFromId_ok (i : RemoteId) (h : reIsMatchId i.val = true) :
    RemoteId.tryFrom i.val = .ok i := by
  unfold RemoteId.tryFrom
  rw [if_pos h]

end Club

namespace Club

theorem tryFromName_ok_val (s : List Char) (h : reIsMatchName s = true) :
    RemoteName.tryFrom s = .ok ⟨s⟩ := by
  unfold RemoteName.tryFrom
  rw [if_pos h]

theorem tryFromId_ok_val (s : List Char) (h : reIsMatchId s = true) :
    RemoteId.tryFrom s = .ok ⟨s⟩ := by
  unfold RemoteId.tryFrom
  rw [if_pos h]

theorem tryFromName_ok_inv (s : List Char) (n : RemoteName)
    (h : RemoteName.tryFrom s = .ok n) : reIsMatchName s = true := by
  by_cases hm : reIsMatchName s = true
  · exact hm
  · unfold RemoteName.tryFrom at h
    rw [if_neg hm] at h
    exact Except.noConfusion h

theorem tryFromId_ok_inv (s : List Char) (i : RemoteId)
    (h : RemoteId.tryFrom s = .ok i) : reIsMatchId s = true := by
  by_cases hm : reIsMatchId s = true
  · exact hm
  · unfold RemoteId.tryFrom at h
    rw [if_neg hm] at h
    exact Except.noConfusion h

theorem collectParentIds_map (pids : List (List Char)) :
    collectParentIds (pids.map JValue.str) = .ok pids := by
  induction pids with
  | nil => rfl
  | cons s rest ih =>
    rw [List.map_cons]
    simp only [collectParentIds, asStr]
    rw [ih]

theorem objInsert_of_not_mem (key : List Char) (x : JValue)
    (fields : List (List Char × JValue)) (h : key ∉ fields.map Prod.fst) :
    objInsert key x fields = fields ++ [(key, x)] := by
  induction fields with
  | nil => rfl
  | cons f rest ih =>
    have h1 : ¬f.1 = key :=
      fun he => h (by rw [List.map_cons, he]; exact List.mem_cons_self _ _)
    have h2 : key ∉ rest.map Prod.fst :=
      fun hk => h (by rw [List.map_cons]; exact List.mem_cons_of_mem _ hk)
    unfold objInsert
    rw [if_neg h1, ih h2]
    rfl

theorem foldl_objInsert_eq_map (t : RemoteTable) :
    ∀ acc : List (List Char × JValue),
      (t.map (fun p => p.1.val)).Nodup →
      (∀ p ∈ t, p.1.val ∉ acc.map Prod.fst) →
      t.foldl (fun o p => objInsert p.1.val (JValue.str p.2.val) o) acc
        = acc ++ t.map (fun p => (p.1.val, JValue.str p.2.val)) := by
  induction t with
  | nil =>
    intro acc _ _
    simp
  | cons p rest ih =>
    intro acc hnd hdisj
    rw [List.map_cons] at hnd
    have h2 : ∀ q ∈ rest, q.1.val ∉ (acc ++ [(p.1.val, JValue.str p.2.val)]).map Prod.fst := by
      intro q hq hmem
      rw [List.map_append] at hmem
      rcases List.mem_append.mp hmem with hin | hin
      · exact hdisj q (List.mem_cons_of_mem _ hq) hin
      · have hqp : q.1.val = p.1.val := by simpa using hin
        exact (List.nodup_cons.mp hnd).1
          (by rw [← hqp]; exact List.mem_map.mpr ⟨q, hq, rfl⟩)
    rw [List.foldl_cons, objInsert_of_not_mem _ _ _ (hdisj p (List.mem_cons_self _ _)),
      ih _ (List.nodup_cons.mp hnd).2 h2, List.map_cons, List.append_assoc]
    rfl

theorem buildRemoteMap_encoded (t : RemoteTable) :
    ∀ acc : RemoteTable,
      (∀ p ∈ t, reIsMatchName p.1.val = true ∧ reIsMatchId p.2.val = true) →
      (tableKeys t).Nodup →
      (∀ p ∈ t, p.1 ∉ tableKeys acc) →
      buildRemoteMap acc (t.map (fun p => (p.1.val, JValue.str p.2.val)))
        = .ok (acc ++ t) := by
  induction t with
  | nil =>
    intro acc _ _ _
    simp [buildRemoteMap]
  | cons p rest ih =>
    intro acc hval hnd hdisj
    rw [tableKeys_cons] at hnd
    have h1 := tryFromName_ok p.1 (hval p (List.mem_cons_self _ _)).1
    have h2 := tryFromId_ok p.2 (hval p (List.mem_cons_self _ _)).2
    rw [List.map_cons]
    simp only [buildRemoteMap, h1, h2, asStr]
    rw [imInsert_of_not_mem _ _ _ (hdisj p (List.mem_cons_self _ _))]
    simp only [Prod.mk.eta]
    have hdisj2 : ∀ q ∈ rest, q.1 ∉ tableKeys (acc ++ [p]) := by
      intro q hq hmem
      rw [tableKeys_append] at hmem
      rcases List.mem_append.mp hmem with hin | hin
      · exact hdisj q (List.mem_cons_of_mem _ hq) hin
      · have hqp : q.1 = p.1 := by simpa [tableKeys] using hin
        exact (List.nodup_cons.mp hnd).1
          (by rw [← hqp]; exact List.mem_map.mpr ⟨q, hq, rfl⟩)
    rw [ih (acc ++ [p]) (fun q hq => hval q (List.mem_cons_of_mem _ hq))
      (List.nodup_cons.mp hnd).2 hdisj2, List.append_assoc]
    rfl

theorem buildRemoteMap_ok_all_valid (fields : List (List Char × JValue)) :
    ∀ acc t, buildRemoteMap acc fields = .ok t → fields.all validEntry = true := by
  induction fields with
  | nil =>
    intro acc t _
    rfl
  | cons f rest ih =>
    obtain ⟨k, v⟩ := f
    intro acc t h
    simp only [buildRemoteMap] at h
    cases hn : RemoteName.tryFrom k with
    | error e =>
      rw [hn] at h
      exact TableResult.noConfusion h
    | ok rn =>
      simp only [hn] at h
      cases hs : asStr v with
      | none =>
        rw [hs] at h
        exact TableResult.noConfusion h
      | some s =>
        simp only [hs] at h
        cases hi : RemoteId.tryFrom s with
        | error e =>
          rw [hi] at h
          exact TableResult.noConfusion h
        | ok ri =>
          simp only [hi] at h
          rw [List.all_cons, Bool.and_eq_true]
          refine ⟨?_, ih _ _ h⟩
          simp only [validEntry, hs]
          rw [tryFromName_ok_inv _ _ hn, tryFromId_ok_inv _ _ hi]
          rfl

theorem buildRemoteMap_panicked_of_invalid (fields : List (List Char × JValue)) :
    ∀ acc, fields.all validEntry = false →
      ∃ m, buildRemoteMap acc fields = .panicked m := by
  induction fields with
  | nil =>
    intro acc h
    exact Bool.noConfusion h
  | cons f rest ih =>
    obtain ⟨k, v⟩ := f
    intro acc h
    cases hn : RemoteName.tryFrom k with
    | error e =>
      exact ⟨"called unwrap on an Err value".toList, by simp only [buildRemoteMap, hn]⟩
    | ok rn =>
      cases hs : asStr v with
      | none =>
        exact ⟨"Remote ID should be a string".toList, by simp only [buildRemoteMap, hn, hs]⟩
      | some s =>
        cases hi : RemoteId.tryFrom s with
        | error e =>
          exact ⟨"called unwrap on an Err value".toList,
            by simp only [buildRemoteMap, hn, hs, hi]⟩
        | ok ri =>
          have hv : validEntry (k, v) = true := by
            simp only [validEntry, hs]
            rw [tryFromName_ok_inv _ _ hn, tryFromId_ok_inv _ _ hi]
            rfl
          have hrest : rest.all validEntry = false := by
            rw [List.all_cons, hv, Bool.true_and] at h
            exact h
          obtain ⟨m, hm⟩ := ih (imInsert rn ri acc) hrest
          exact ⟨m, by simp only [buildRemoteMap, hn, hs, hi]; exact hm⟩

theorem buildRemoteMap_ok_of_all_valid (fields : List (List Char × JValue)) :
    ∀ acc, fields.all validEntry = true →
      ∃ t, buildRemoteMap acc fields = .ok t := by
  induction fields with
  | nil =>
    intro acc _
    exact ⟨acc, rfl⟩
  | cons f rest ih =>
    obtain ⟨k, v⟩ := f
    intro acc h
    rw [List.all_cons, Bool.and_eq_true] at h
    have hv := h.1
    simp only [validEntry, Bool.and_eq_true] at hv
    have h1 : reIsMatchName k = true := hv.1
    obtain ⟨s, hs, h2⟩ : ∃ s, asStr v = some s ∧ reIsMatchId s = true := by
      have hm := hv.2
      cases hvv : asStr v with
      | none =>
        simp only [hvv] at hm
        exact Bool.noConfusion hm
      | some s =>
        simp only [hvv] at hm
        exact ⟨s, rfl, hm⟩
    obtain ⟨t, ht⟩ := ih (imInsert ⟨k⟩ ⟨s⟩ acc) h.2
    refine ⟨t, ?_⟩
    simp only [buildRemoteMap, tryFromName_ok_val k h1, hs, tryFromId_ok_val s h2]
    exact ht

theorem claspConfigTryFrom_manifest (rd sid : List Char) (pids : List (List Char))
    (x : JValue) :
    claspConfigTryFrom (.obj [(rootDirKey, .str rd), (scriptIdKey, .str sid),
        (parentIdKey, .arr (pids.map JValue.str)), (clubKey, x)]) =
      (match collectParentIds (pids.map JValue.str) with
       | .error e => .err e
       | .ok ps =>
         match asObj x with
         | none => .ok ⟨rd, sid, ps, none⟩
         | some fields =>
           match buildRemoteMap [] fields with
           | .panicked m => .panicked m
           | .ok t => .ok ⟨rd, sid, ps, some t⟩) := rfl

theorem claspConfigTryFrom_noclub (rd sid : List Char) (pids : List (List Char)) :
    claspConfigTryFrom (.obj [(rootDirKey, .str rd), (scriptIdKey, .str sid),
        (parentIdKey, .arr (pids.map JValue.str))]) =
      (match collectParentIds (pids.map JValue.str) with
       | .error e => .err e
       | .ok ps => .ok ⟨rd, sid, ps, none⟩) := rfl

theorem claspConfigTryFrom_manifest_ok_none (rd sid : List Char)
    (pids : List (List Char)) (x : JValue) (hx : asObj x = none) :
    claspConfigTryFrom (.obj [(rootDirKey, .str rd), (scriptIdKey, .str sid),
        (parentIdKey, .arr (pids.map JValue.str)), (clubKey, x)])
      = .ok ⟨rd, sid, pids, none⟩ := by
  rw [claspConfigTryFrom_manifest]
  simp only [collectParentIds_map, hx]

theorem claspConfigTryFrom_manifest_fields (rd sid : List Char)
    (pids : List (List Char)) (fields : List (List Char × JValue)) :
    claspConfigTryFrom (.obj [(rootDirKey, .str rd), (scriptIdKey, .str sid),
        (parentIdKey, .arr (pids.map JValue.str)), (clubKey, .obj fields)]) =
      (match buildRemoteMap [] fields with
       | .panicked m => .panicked m
       | .ok t => .ok ⟨rd, sid, pids, some t⟩) := by
  rw [claspConfigTryFrom_manifest]
  simp only [collectParentIds_map, asObj]

end Club

namespace Club

theorem tryFromId_error_val (s : List Char) (h : reIsMatchId s = false) :
    RemoteId.tryFrom s = .error .InvalidRemoteId := by
  unfold RemoteId.tryFrom
  rw [if_neg (by rw [h]; exact Bool.false_ne_true)]

/-- C1: the claim states that a push to a single remote always restores the
on-disk manifest, both after the subprocess exits with any status and when the
subprocess could not be started (failing with `ClaspError` carrying the OS
detail). The code violates the spawn-failure half: the `?` on `.status()`
returns before the restoring write, so the manifest is left with the swapped
script id. At this concrete input the call fails with `ClaspError` of the OS
detail, yet the manifest on disk differs from the original config; the two
exited outcomes do restore it. -/
theorem C1_spawn_failure_leaves_manifest_swapped :
    push_to_remote ⟨List.replicate 57 'b'⟩ ⟨['r'], ['X'], [], some []⟩
        (.couldNotStart "No such file or directory".toList)
      = (.error (.ClaspError "No such file or directory".toList),
         ⟨['r'], List.replicate 57 'b', [], some []⟩)
    ∧ (⟨['r'], List.replicate 57 'b', [], some []⟩ : ClaspConfig)
        ≠ ⟨['r'], ['X'], [], some []⟩
    ∧ push_to_remote ⟨List.replicate 57 'b'⟩ ⟨['r'], ['X'], [], some []⟩
        (.exited true) = (.ok (), ⟨['r'], ['X'], [], some []⟩)
    ∧ push_to_remote ⟨List.replicate 57 'b'⟩ ⟨['r'], ['X'], [], some []⟩
        (.exited false)
      = (.error (.ClaspError "clasp push failed".toList),
         ⟨['r'], ['X'], [], some []⟩) := by
  refine ⟨rfl, by decide, rfl, rfl⟩

/-- C2: the claim states RemoteId validation accepts exactly the strings of
length 57 over the allowed alphabet and rejects everything else with
`InvalidRemoteId`. The code's regex `[a-zA-Z0-9-_]{57}` is used with the
unanchored `is_match`, so any string containing a run of 57 allowed
characters is accepted: a 58-character id passes `TryFrom` and is accepted by
`club_set`, and an id with a leading disallowed space also passes. -/
theorem C2_overlong_id_accepted :
    (List.replicate 58 'a').length ≠ 57
    ∧ RemoteId.tryFrom (List.replicate 58 'a') = .ok ⟨List.replicate 58 'a'⟩
    ∧ club_set ⟨['r'], ['X'], [], some []⟩ ['x'] (List.replicate 58 'a')
        = .ok ⟨['r'], ['X'], [], some [(⟨['x']⟩, ⟨List.replicate 58 'a'⟩)]⟩
    ∧ isClassChar ' ' = false
    ∧ RemoteId.tryFrom (' ' :: List.replicate 57 'a')
        = .ok ⟨' ' :: List.replicate 57 'a'⟩ := by
  refine ⟨by decide, by decide, by decide, by decide, by decide⟩

/-- C3: the claim states RemoteName validation accepts exactly the non-empty
strings all of whose characters are alphanumeric, hyphen or underscore, and
rejects any string with a disallowed character. The code's regex
`[a-zA-Z0-9-_]+` is used with the unanchored `is_match`, so any string
containing at least one allowed character is accepted: the name with a space
in the middle passes `TryFrom` although the space is disallowed. -/
theorem C3_name_with_disallowed_char_accepted :
    isClassChar ' ' = false
    ∧ RemoteName.tryFrom ['a', ' ', 'b'] = .ok ⟨['a', ' ', 'b']⟩ := by
  refine ⟨by decide, by decide⟩

/-- C7: init fails with `ClubAlreadySetup` whenever the loaded config already
has a remote table (in particular, init applied to the output of a successful
init fails); on an uninitialized config it produces the config to be written,
whose table holds the single entry `main` mapped to the manifest's script id
exactly when that id passes `RemoteId::try_from`, and is empty otherwise. -/
theorem C7_init_guard_and_seed (config : ClaspConfig) :
    (∀ t, config.club_remotes = some t →
      club_init config = .error .ClubAlreadySetup)
    ∧ (config.club_remotes = none →
      club_init config = .ok { config with
        club_remotes := some (if reIsMatchId config.script_id
          then [(⟨mainStr⟩, ⟨config.script_id⟩)] else []) })
    ∧ (∀ c2, club_init config = .ok c2 →
      club_init c2 = .error .ClubAlreadySetup) := by
  refine ⟨?_, ?_, ?_⟩
  · intro t ht
    simp only [club_init, ht]
  · intro h
    by_cases hid : reIsMatchId config.script_id = true
    · simp only [club_init, h, tryFromId_ok_val _ hid, if_pos hid]
      rfl
    · have hid' : reIsMatchId config.script_id = false := by
        cases hh : reIsMatchId config.script_id
        · rfl
        · exact absurd hh hid
      simp only [club_init, h, tryFromId_error_val _ hid', if_neg hid]
  · intro c2 h2
    cases hc : config.club_remotes with
    | some t =>
      simp only [club_init, hc] at h2
      exact Except.noConfusion h2
    | none =>
      simp only [club_init, hc, Except.ok.injEq] at h2
      rw [← h2]
      rfl

/-- C7 witness: a first init on an uninitialized config (whose script id is
not a well-formed RemoteId) creates an empty table, and a second init on the
result fails with `ClubAlreadySetup`. -/
theorem C7_witness :
    club_init ⟨['r'], ['X'], [], none⟩ = .ok ⟨['r'], ['X'], [], some []⟩
    ∧ club_init ⟨['r'], ['X'], [], some []⟩ = .error .ClubAlreadySetup := by
  constructor
  · exact ((C7_init_guard_and_seed ⟨['r'], ['X'], [], none⟩).2.1 rfl).trans
      (by decide)
  · exact (C7_init_guard_and_seed ⟨['r'], ['X'], [], some []⟩).1 [] rfl

/-- C8: push requires the table (`ClubNotSetup` when absent), rejects a remote
name combined with the all flag (`BothRemoteAndAllPassed`), rejects an empty
table (`NoRemotesAvailable`); with the all flag it selects every entry in
table order, otherwise it resolves the target name (defaulting to `main`)
and fails `RemoteNotFound` when the resolved name is absent. -/
theorem C8_push_selection (config : ClaspConfig) (t : RemoteTable) :
    (config.club_remotes = none →
      ∀ r a, club_push config r a = .error .ClubNotSetup)
    ∧ (config.club_remotes = some t →
      ∀ s, club_push config (some s) true = .error .BothRemoteAndAllPassed)
    ∧ (config.club_remotes = some [] →
      ∀ r a, (r.isSome && a) = false →
        club_push config r a = .error .NoRemotesAvailable)
    ∧ (config.club_remotes = some t → t ≠ [] →
      club_push config none true = .ok t)
    ∧ (config.club_remotes = some t → t ≠ [] →
      club_push config none false =
        (match imGet ⟨mainStr⟩ t with
         | none => .error .RemoteNotFound
         | some i => .ok [(⟨mainStr⟩, i)]))
    ∧ (∀ n : RemoteName, reIsMatchName n.val = true →
      config.club_remotes = some t → t ≠ [] →
      club_push config (some n.val) false =
        (match imGet n t with
         | none => .error .RemoteNotFound
         | some i => .ok [(n, i)])) := by
  refine ⟨?_, ?_, ?_, ?_, ?_, ?_⟩
  · intro h r a
    simp only [club_push, h]
  · intro h s
    simp [club_push, h]
  · intro h r a hna
    simp only [club_push, h]
    rw [if_neg (by rw [hna]; exact Bool.false_ne_true)]
    rfl
  · intro h hne
    have hlen : (t.length == 0) = false := by
      rw [beq_eq_false_iff_ne]
      intro h0
      exact hne (List.length_eq_zero.mp h0)
    simp [club_push, h, hlen]
  · intro h hne
    have hlen : (t.length == 0) = false := by
      rw [beq_eq_false_iff_ne]
      intro h0
      exact hne (List.length_eq_zero.mp h0)
    simp [club_push, h, hlen, tryFromName_ok_val mainStr (by decide)]
  · intro n hn h hne
    have hlen : (t.length == 0) = false := by
      rw [beq_eq_false_iff_ne]
      intro h0
      exact hne (List.length_eq_zero.mp h0)
    simp [club_push, h, hlen, tryFromName_ok n hn]

/-- C8 witness: on a one-entry table, a push with no arguments resolves the
default target `main` and selects that single entry. -/
theorem C8_witness :
    club_push ⟨[], [], [], some [(⟨mainStr⟩, ⟨['i']⟩)]⟩ none false
      = .ok [(⟨mainStr⟩, ⟨['i']⟩)] := by
  have h := (C8_push_selection ⟨[], [], [], some [(⟨mainStr⟩, ⟨['i']⟩)]⟩
    [(⟨mainStr⟩, ⟨['i']⟩)]).2.2.2.2.1 rfl (by decide)
  exact h.trans (by decide)

end Club

namespace Club

/-- C4: for a manifest whose `__club__` field is a JSON object, the load
produces a config with a remote table only when every stored key passes
`RemoteName` validation and every stored value is a JSON string passing
`RemoteId` validation; when every entry is well-formed the whole table is
parsed, and when any entry is malformed the load aborts (the `unwrap`/
`expect` calls panic) rather than skipping the entry or succeeding. -/
theorem C4_strict_club_parse (rd sid : List Char) (pids : List (List Char))
    (fields : List (List Char × JValue)) :
    (∀ c, claspConfigTryFrom (.obj [(rootDirKey, .str rd), (scriptIdKey, .str sid),
        (parentIdKey, .arr (pids.map JValue.str)), (clubKey, .obj fields)])
        = .ok c →
      fields.all validEntry = true)
    ∧ (fields.all validEntry = true →
      ∃ tb, claspConfigTryFrom (.obj [(rootDirKey, .str rd), (scriptIdKey, .str sid),
        (parentIdKey, .arr (pids.map JValue.str)), (clubKey, .obj fields)])
        = .ok ⟨rd, sid, pids, some tb⟩)
    ∧ (fields.all validEntry = false →
      ∃ msg, claspConfigTryFrom (.obj [(rootDirKey, .str rd), (scriptIdKey, .str sid),
        (parentIdKey, .arr (pids.map JValue.str)), (clubKey, .obj fields)])
        = .panicked msg) := by
  refine ⟨?_, ?_, ?_⟩
  · intro c h
    rw [claspConfigTryFrom_manifest_fields] at h
    cases hb : buildRemoteMap [] fields with
    | panicked m =>
      simp only [hb] at h
      exact LoadResult.noConfusion h
    | ok tb =>
      exact buildRemoteMap_ok_all_valid fields [] tb hb
  · intro hv
    obtain ⟨tb, hb⟩ := buildRemoteMap_ok_of_all_valid fields [] hv
    exact ⟨tb, by rw [claspConfigTryFrom_manifest_fields]; simp only [hb]⟩
  · intro hv
    obtain ⟨msg, hb⟩ := buildRemoteMap_panicked_of_invalid fields [] hv
    exact ⟨msg, by rw [claspConfigTryFrom_manifest_fields]; simp only [hb]⟩

/-- C4 witness: a manifest whose `__club__` object holds one well-formed
entry loads into a config with a table, and one whose single entry has a
non-string value makes the load abort. -/
theorem C4_witness :
    (∃ tb, claspConfigTryFrom (.obj [(rootDirKey, .str ['r']), (scriptIdKey, .str ['X']),
        (parentIdKey, .arr (([] : List (List Char)).map JValue.str)),
        (clubKey, .obj [(['k'], .str (List.replicate 57 'a'))])])
      = .ok ⟨['r'], ['X'], [], some tb⟩)
    ∧ (∃ msg, claspConfigTryFrom (.obj [(rootDirKey, .str ['r']), (scriptIdKey, .str ['X']),
        (parentIdKey, .arr (([] : List (List Char)).map JValue.str)),
        (clubKey, .obj [(['k'], .num 3)])])
      = .panicked msg) :=
  ⟨(C4_strict_club_parse ['r'] ['X'] []
      [(['k'], JValue.str (List.replicate 57 'a'))]).2.1 (by decide),
   (C4_strict_club_parse ['r'] ['X'] [] [(['k'], JValue.num 3)]).2.2 (by decide)⟩

theorem club_rename_notfound (config : ClaspConfig) (t : RemoteTable)
    (oldN newN : RemoteName) (rest : RemoteTable)
    (ht : config.club_remotes = some t)
    (hold : reIsMatchName oldN.val = true) (hnew : reIsMatchName newN.val = true)
    (hcn : containsKey newN t = false)
    (hsr : shiftRemove oldN t = (none, rest)) :
    club_rename config oldN.val newN.val = .error .RemoteNotFound := by
  simp only [club_rename, tryFromName_ok oldN hold, tryFromName_ok newN hnew, ht]
  rw [hcn, hsr]
  rfl

theorem club_rename_ok_eq (config : ClaspConfig) (t : RemoteTable)
    (oldN newN : RemoteName) (i : RemoteId) (rest : RemoteTable)
    (ht : config.club_remotes = some t)
    (hold : reIsMatchName oldN.val = true) (hnew : reIsMatchName newN.val = true)
    (hcn : containsKey newN t = false)
    (hsr : shiftRemove oldN t = (some i, rest)) :
    club_rename config oldN.val newN.val
      = .ok { config with club_remotes := some (imInsert newN i rest) } := by
  simp only [club_rename, tryFromName_ok oldN hold, tryFromName_ok newN hnew, ht]
  rw [hcn, hsr]
  rfl

/-- C5: rename fails `RemoteAlreadyExists` whenever the new name is already a
key of the table (including renaming a present name to itself); otherwise it
fails `RemoteNotFound` when the old name is absent; otherwise it removes the
old entry and re-inserts the old id under the new name at the end of the
table, so the renamed entry is last, mapped to the old id, the old name is
absent and the new name present. -/
theorem C5_rename_semantics (config : ClaspConfig) (t : RemoteTable)
    (oldN newN : RemoteName) (ht : config.club_remotes = some t)
    (hold : reIsMatchName oldN.val = true) (hnew : reIsMatchName newN.val = true) :
    (containsKey newN t = true →
      club_rename config oldN.val newN.val = .error .RemoteAlreadyExists)
    ∧ (containsKey oldN t = true →
      club_rename config oldN.val oldN.val = .error .RemoteAlreadyExists)
    ∧ (containsKey newN t = false → containsKey oldN t = false →
      club_rename config oldN.val newN.val = .error .RemoteNotFound)
    ∧ (∀ i, containsKey newN t = false → imGet oldN t = some i →
        (tableKeys t).Nodup →
        club_rename config oldN.val newN.val
          = .ok { config with
              club_remotes := some ((shiftRemove oldN t).2 ++ [(newN, i)]) }
        ∧ oldN ∉ tableKeys ((shiftRemove oldN t).2 ++ [(newN, i)])
        ∧ newN ∈ tableKeys ((shiftRemove oldN t).2 ++ [(newN, i)])) := by
  refine ⟨?_, ?_, ?_, ?_⟩
  · intro hc
    simp only [club_rename, tryFromName_ok oldN hold, tryFromName_ok newN hnew, ht]
    rw [hc]
    rfl
  · intro hc
    simp only [club_rename, tryFromName_ok oldN hold, ht]
    rw [hc]
    rfl
  · intro hcn hco
    have h1 : (shiftRemove oldN t).1 = none := by
      rw [shiftRemove_fst]
      exact imGet_eq_none_of_not_mem _ _ ((containsKey_eq_false_iff _ _).mp hco)
    have hpair : shiftRemove oldN t = (none, (shiftRemove oldN t).2) := by
      rw [← h1]
    exact club_rename_notfound config t oldN newN _ ht hold hnew hcn hpair
  · intro i hcn hget hnd
    have h1 : (shiftRemove oldN t).1 = some i := by
      rw [shiftRemove_fst]
      exact hget
    have hpair : shiftRemove oldN t = (some i, (shiftRemove oldN t).2) := by
      rw [← h1]
    have hrest := shiftRemove_snd_of_nodup oldN t hnd
    have hnmem : newN ∉ tableKeys (shiftRemove oldN t).2 := by
      rw [hrest]
      intro hmem
      exact (containsKey_eq_false_iff _ _).mp hcn
        (mem_tableKeys_of_mem_filter _ _ _ hmem)
    have holdmem : oldN ∈ tableKeys t := by
      by_contra hno
      rw [imGet_eq_none_of_not_mem _ _ hno] at hget
      exact Option.noConfusion hget
    refine ⟨?_, ?_, ?_⟩
    · rw [club_rename_ok_eq config t oldN newN i _ ht hold hnew hcn hpair,
        imInsert_of_not_mem _ _ _ hnmem]
    · rw [tableKeys_append, hrest]
      intro hmem
      rcases List.mem_append.mp hmem with hin | hin
      · exact not_mem_tableKeys_filter_ne oldN t hin
      · have he : oldN = newN := by simpa [tableKeys] using hin
        exact (containsKey_eq_false_iff _ _).mp hcn (by rw [← he]; exact holdmem)
    · rw [tableKeys_append]
      refine List.mem_append.mpr (Or.inr ?_)
      simp [tableKeys]

/-- C5 witness: renaming the first of two remotes to a fresh name moves the
entry to the end of the table with its id, removing the old name. -/
theorem C5_witness :
    club_rename ⟨[], [], [], some [(⟨['a']⟩, ⟨['x']⟩), (⟨['b']⟩, ⟨['y']⟩)]⟩
        ['a'] ['c']
      = .ok ⟨[], [], [], some [(⟨['b']⟩, ⟨['y']⟩), (⟨['c']⟩, ⟨['x']⟩)]⟩ := by
  have h := ((C5_rename_semantics
      ⟨[], [], [], some [(⟨['a']⟩, ⟨['x']⟩), (⟨['b']⟩, ⟨['y']⟩)]⟩
      [(⟨['a']⟩, ⟨['x']⟩), (⟨['b']⟩, ⟨['y']⟩)] ⟨['a']⟩ ⟨['c']⟩ rfl
      (by decide) (by decide)).2.2.2 ⟨['x']⟩ (by decide) (by decide) (by decide)).1
  exact h.trans (by decide)

end Club

namespace Club

/-- C6: serializing a `ClaspConfig` to the manifest JSON and parsing that JSON
back yields an equal config for the four known fields, including presence
versus absence of the remote table and the table's entries in their order.
The hypothesis captures the source's newtype and IndexMap invariants: every
stored name and id was built through validation, and table keys are unique. -/
theorem C6_load_after_save_roundtrip (c : ClaspConfig)
    (hvalid : ∀ t, c.club_remotes = some t →
      ((∀ p ∈ t, reIsMatchName p.1.val = true ∧ reIsMatchId p.2.val = true)
        ∧ (tableKeys t).Nodup)) :
    claspConfigTryFrom (claspConfigToValue c) = .ok c := by
  obtain ⟨rd, sid, pids, tbl⟩ := c
  cases tbl with
  | none =>
    exact (claspConfigTryFrom_noclub rd sid pids).trans
      (by simp only [collectParentIds_map])
  | some t =>
    obtain ⟨hval, hnd⟩ := hvalid t rfl
    have hvals : (t.map (fun p => p.1.val)).Nodup := by
      have h0 : t.map (fun p => p.1.val) = (tableKeys t).map RemoteName.val := by
        unfold tableKeys
        rw [List.map_map]
        rfl
      rw [h0]
      exact hnd.map (fun a b hab => by
        cases a
        cases b
        simpa using hab)
    have hfold := foldl_objInsert_eq_map t [] hvals (by intro p hp; simp)
    rw [List.nil_append] at hfold
    have hbuild := buildRemoteMap_encoded t [] hval hnd (by intro p hp; simp [tableKeys])
    rw [List.nil_append] at hbuild
    have step1 : claspConfigTryFrom (claspConfigToValue ⟨rd, sid, pids, some t⟩)
        = claspConfigTryFrom (.obj [(rootDirKey, .str rd), (scriptIdKey, .str sid),
            (parentIdKey, .arr (pids.map JValue.str)),
            (clubKey, .obj (t.foldl
              (fun o p => objInsert p.1.val (JValue.str p.2.val) o) []))]) := rfl
    rw [step1, hfold, claspConfigTryFrom_manifest_fields]
    simp only [hbuild]

/-- C6 witness: a concrete config with one valid remote entry round-trips
through save and load unchanged. -/
theorem C6_witness :
    claspConfigTryFrom (claspConfigToValue ⟨['r'], ['X'], [['p']],
        some [(⟨mainStr⟩, ⟨List.replicate 57 'a'⟩)]⟩)
      = .ok ⟨['r'], ['X'], [['p']], some [(⟨mainStr⟩, ⟨List.replicate 57 'a'⟩)]⟩ :=
  C6_load_after_save_roundtrip _ (by
    intro t htt
    injection htt with h2
    rw [← h2]
    exact ⟨by decide, by decide⟩)

/-- C9: on an initialized table with unique keys, `club_set` on an
already-present valid name overwrites that entry's id in place, keeping every
entry (and the key order) in its original position, and `club_remove` on a
present valid name deletes exactly that entry, preserving the relative order
of the remaining entries (the result is the filter of the table by the other
keys). -/
theorem C9_set_remove_preserve_order (config : ClaspConfig) (t : RemoteTable)
    (n m : RemoteName) (i : RemoteId)
    (ht : config.club_remotes = some t) (hnd : (tableKeys t).Nodup)
    (hn : reIsMatchName n.val = true) (hi : reIsMatchId i.val = true)
    (hnmem : n ∈ tableKeys t)
    (hm : reIsMatchName m.val = true) (hmmem : m ∈ tableKeys t) :
    (club_set config n.val i.val
        = .ok { config with
            club_remotes := some (t.map (fun p => if p.1 = n then (p.1, i) else p)) }
      ∧ tableKeys (t.map (fun p => if p.1 = n then (p.1, i) else p)) = tableKeys t)
    ∧ club_remove config m.val
        = .ok { config with
            club_remotes := some (t.filter (fun p => decide (p.1 ≠ m))) } := by
  refine ⟨⟨?_, tableKeys_map_overwrite n i t⟩, ?_⟩
  · simp only [club_set, tryFromName_ok n hn, tryFromId_ok i hi, ht]
    rw [imInsert_of_mem_nodup n i t hnd hnmem]
  · obtain ⟨i2, hget⟩ := imGet_isSome_of_mem m t hmmem
    have h1 : (shiftRemove m t).1 = some i2 := by
      rw [shiftRemove_fst]
      exact hget
    have hpair : shiftRemove m t = (some i2, (shiftRemove m t).2) := by
      rw [← h1]
    simp only [club_remove, tryFromName_ok m hm, ht]
    rw [hpair, shiftRemove_snd_of_nodup m t hnd]

/-- C9 witness: overwriting the only entry's id keeps it in place, and
removing it yields the empty table. -/
theorem C9_witness :
    club_set ⟨[], [], [], some [(⟨['a']⟩, ⟨List.replicate 57 'x'⟩)]⟩ ['a']
        (List.replicate 57 'n')
      = .ok ⟨[], [], [], some [(⟨['a']⟩, ⟨List.replicate 57 'n'⟩)]⟩
    ∧ club_remove ⟨[], [], [], some [(⟨['a']⟩, ⟨List.replicate 57 'x'⟩)]⟩ ['a']
      = .ok ⟨[], [], [], some []⟩ := by
  have h := C9_set_remove_preserve_order
    ⟨[], [], [], some [(⟨['a']⟩, ⟨List.replicate 57 'x'⟩)]⟩
    [(⟨['a']⟩, ⟨List.replicate 57 'x'⟩)] ⟨['a']⟩ ⟨['a']⟩ ⟨List.replicate 57 'n'⟩
    rfl (by decide) (by decide) (by decide) (by decide) (by decide) (by decide)
  exact ⟨h.1.1.trans (by decide), h.2.trans (by decide)⟩

/-- C10: when the reserved `__club__` key holds a non-object JSON value, the
load succeeds and treats the project as uninitialized (no remote table), so
the table operations fail with `ClubNotSetup`, and init succeeds, producing a
config whose serialization carries `__club__` as a JSON object (silently
replacing the malformed field). -/
theorem C10_nonobject_club_field (rd sid : List Char) (pids : List (List Char))
    (x : JValue) (hx : asObj x = none) :
    claspConfigTryFrom (.obj [(rootDirKey, .str rd), (scriptIdKey, .str sid),
        (parentIdKey, .arr (pids.map JValue.str)), (clubKey, x)])
      = .ok ⟨rd, sid, pids, none⟩
    ∧ club_list ⟨rd, sid, pids, none⟩ = .error .ClubNotSetup
    ∧ (∀ n i, reIsMatchName n = true → reIsMatchId i = true →
        club_set ⟨rd, sid, pids, none⟩ n i = .error .ClubNotSetup)
    ∧ (∀ n, reIsMatchName n = true →
        club_remove ⟨rd, sid, pids, none⟩ n = .error .ClubNotSetup)
    ∧ (∀ n m2, reIsMatchName n = true → reIsMatchName m2 = true →
        club_rename ⟨rd, sid, pids, none⟩ n m2 = .error .ClubNotSetup)
    ∧ (∀ r a, club_push ⟨rd, sid, pids, none⟩ r a = .error .ClubNotSetup)
    ∧ ∃ c2, club_init ⟨rd, sid, pids, none⟩ = .ok c2
        ∧ ∃ fields, jIndex (claspConfigToValue c2) clubKey = .obj fields := by
  refine ⟨claspConfigTryFrom_manifest_ok_none rd sid pids x hx, rfl,
    ?_, ?_, ?_, ?_, ?_⟩
  · intro n i hn hi
    simp only [club_set, tryFromName_ok_val n hn, tryFromId_ok_val i hi]
  · intro n hn
    simp only [club_remove, tryFromName_ok_val n hn]
  · intro n m2 hn hm2
    simp only [club_rename, tryFromName_ok_val n hn, tryFromName_ok_val m2 hm2]
  · intro r a
    rfl
  · exact ⟨_, rfl, _, rfl⟩

/-- C10 witness: a manifest whose `__club__` field is the JSON string `"z"`
loads as uninitialized, and push on the loaded config fails `ClubNotSetup`. -/
theorem C10_witness :
    claspConfigTryFrom (.obj [(rootDirKey, .str ['r']), (scriptIdKey, .str ['X']),
        (parentIdKey, .arr (([] : List (List Char)).map JValue.str)),
        (clubKey, .str ['z'])])
      = .ok ⟨['r'], ['X'], [], none⟩
    ∧ club_push ⟨['r'], ['X'], [], none⟩ none false = .error .ClubNotSetup :=
  ⟨(C10_nonobject_club_field ['r'] ['X'] [] (.str ['z']) rfl).1,
   (C10_nonobject_club_field ['r'] ['X'] [] (.str ['z']) rfl).2.2.2.2.2.1 none false⟩

end Club
